import Mathlib

/-!
# Verification of the IGI-GraphViewer data-shaping pipeline

Shallow embedding of `src/graph_gen_web_app.py`: the node record model,
`get_edges`, `prepare_node_colors_and_sizes`, `prepare_hover_text`,
`plot_3d` and `adjust_node_height_data`, together with theorems about the
spec's claims.

Python dicts parsed from the graph file are modelled as a `Record`
structure: the fields `id`, `x`, `y`, `z` are always present (a record
missing them is a structurally wrong input the pipeline never receives),
while `material`, `gamma`, `radius`, `criteria` and `edges` are `Option`s,
`none` meaning the key is absent from the dict.  Numeric values are
modelled as `Int`.  A Python `KeyError` on a missing key is modelled by
the function returning `Except String` with the missing key's name.
-/

set_option autoImplicit false

namespace GraphViewer

/-- A node record, one per entry of the parsed node list. -/
structure Record where
  id : Int
  x : Int
  y : Int
  z : Int
  material : Option String := none
  gamma : Option Int := none
  radius : Option Int := none
  criteria : Option String := none
  edges : Option (List Int) := none
deriving Repr, DecidableEq

/-- `next((node for node in data if node["id"] == edge), None)` from
`get_edges`: first node of `data` whose id equals `e`. -/
def findNode (data : List Record) (e : Int) : Option Record :=
  data.find? (fun n => n.id == e)

/-- The inner `for edge in item["edges"]` loop of `get_edges`, restricted to
one coordinate axis `f`: for each edge id of `es`, if the target resolves
in `lookup`, emit source coordinate, target coordinate and the `None`
pen-up sentinel; otherwise emit nothing. -/
def innerSeg (f : Record → Int) (lookup : List Record) (item : Record)
    (es : List Int) : List (Option Int) :=
  es.flatMap (fun e =>
    match findNode lookup e with
    | some t => [some (f item), some (f t), none]
    | none => [])

/-- One coordinate axis of `get_edges`, iterating over `iter` and resolving
edge targets against `lookup` (in the source both are the same list).
Items without an `edges` key are skipped by the `if "edges" in item`
guard. -/
def edgeCoordAux (f : Record → Int) (lookup : List Record) (iter : List Record) :
    List (Option Int) :=
  iter.flatMap (fun item =>
    match item.edges with
    | none => []
    | some es => innerSeg f lookup item es)

/-- `get_edges(data)` from the source: three flat coordinate sequences with
a `none` pen-up sentinel after every resolved edge segment. -/
def get_edges (data : List Record) :
    List (Option Int) × List (Option Int) × List (Option Int) :=
  (edgeCoordAux (·.x) data data, edgeCoordAux (·.y) data data,
   edgeCoordAux (·.z) data data)

/-- A Python accumulation loop whose body may raise: process the items in
order, collecting one result per item, propagating the first exception. -/
def exceptMap {α β : Type} (f : α → Except String β) : List α → Except String (List β)
  | [] => .ok []
  | a :: l =>
    match f a with
    | .error e => .error e
    | .ok b =>
      match exceptMap f l with
      | .error e => .error e
      | .ok bs => .ok (b :: bs)

/-- The two-level colour lookup of `prepare_node_colors_and_sizes`:
`material_colors.get(material_mapping.get(material, 'UNKNOWN'), 'purple')`.
Modelled from the spec: the tables `material_mapping` and `material_colors`
live in `graph_const`, which is outside the analysed source; they are
passed as read-only lookup functions (Python `dict.get`). -/
def resolve_color (material_mapping material_colors : String → Option String)
    (material : String) : String :=
  (material_colors ((material_mapping material).getD "UNKNOWN")).getD "purple"

/-- Per-item body of the `prepare_node_colors_and_sizes` loop:
`item['material']` (KeyError if absent), the two-level colour lookup, then
`item['radius'] * node_radius_size` (KeyError if absent). -/
def node_color_and_size (material_mapping material_colors : String → Option String)
    (node_radius_size : Int) (item : Record) : Except String (String × Int) :=
  match item.material with
  | none => .error "material"
  | some mat =>
    match item.radius with
    | none => .error "radius"
    | some r => .ok (resolve_color material_mapping material_colors mat,
                     r * node_radius_size)

/-- `prepare_node_colors_and_sizes(data, node_radius_size)` from the source:
one colour and one size per node, raising (here: `Except.error`) at the
first item missing `material` or `radius`. -/
def prepare_node_colors_and_sizes
    (material_mapping material_colors : String → Option String)
    (data : List Record) (node_radius_size : Int) :
    Except String (List String × List Int) :=
  match exceptMap (node_color_and_size material_mapping material_colors
      node_radius_size) data with
  | .error e => .error e
  | .ok pairs => .ok (pairs.map Prod.fst, pairs.map Prod.snd)

/-- The `if show_links:` section of the hover-text loop body:
`"<br>Links: " + ', '.join(map(str, item['edges']))`, or a `KeyError` when
the flag is set and the key is absent; the empty string when the flag is
off. -/
def links_section (show_links : Bool) (item : Record) : Except String String :=
  if show_links then
    match item.edges with
    | none => .error "edges"
    | some es =>
        .ok ("<br>Links: " ++ String.intercalate ", " (es.map toString))
  else .ok ""

/-- The `if show_material:` section of the hover-text loop body. -/
def material_section (show_material : Bool) (item : Record) : Except String String :=
  if show_material then
    match item.material with
    | none => .error "material"
    | some m => .ok ("<br>Material: " ++ m)
  else .ok ""

/-- The `if show_gamma_radius:` section of the hover-text loop body: gamma
and radius always rendered together. -/
def gamma_radius_section (show_gamma_radius : Bool) (item : Record) :
    Except String String :=
  if show_gamma_radius then
    match item.gamma with
    | none => .error "gamma"
    | some g =>
      match item.radius with
      | none => .error "radius"
      | some r =>
          .ok ("<br>Gamma: " ++ toString g ++ "<br>Radius: " ++ toString r)
  else .ok ""

/-- The `if show_criteria:` section of the hover-text loop body. -/
def criteria_section (show_criteria : Bool) (item : Record) : Except String String :=
  if show_criteria then
    match item.criteria with
    | none => .error "criteria"
    | some c => .ok ("<br>Criteria: " ++ c)
  else .ok ""

/-- Per-item body of the `prepare_hover_text` loop: starts with
`"Node ID: <id>"`, then appends the flagged sections in the source's
fixed order, raising on the first missing key an enabled section reads. -/
def hover_line (show_links show_material show_gamma_radius show_criteria : Bool)
    (item : Record) : Except String String :=
  match links_section show_links item with
  | .error e => .error e
  | .ok s1 =>
    match material_section show_material item with
    | .error e => .error e
    | .ok s2 =>
      match gamma_radius_section show_gamma_radius item with
      | .error e => .error e
      | .ok s3 =>
        match criteria_section show_criteria item with
        | .error e => .error e
        | .ok s4 =>
            .ok ("Node ID: " ++ toString item.id ++ s1 ++ s2 ++ s3 ++ s4)

/-- `prepare_hover_text(data, show_links, show_material, show_gamma_radius,
show_criteria)` from the source: one hover string per node. -/
def prepare_hover_text (data : List Record)
    (show_links show_material show_gamma_radius show_criteria : Bool) :
    Except String (List String) :=
  exceptMap (hover_line show_links show_material show_gamma_radius show_criteria)
    data

/-- A Plotly trace added by `plot_3d` to the figure. -/
inductive Trace where
  /-- `go.Scatter3d(..., mode='markers', marker=dict(color, size, symbol?))`;
  `symbol = none` models the surface/mesh marker traces that omit the
  symbol argument. -/
  | markers (x y z : List Int) (colors : List String) (sizes : List Int)
      (symbol : Option String) (text : List String)
  /-- `go.Scatter3d(..., mode='lines+markers', line=dict(color))` of the
  `line` mode. -/
  | linesMarkers (x y z : List Int) (colors : List String) (sizes : List Int)
      (lineColor : String) (text : List String)
  /-- `go.Mesh3d(...)` of the `mesh` mode, with positional intensity. -/
  | mesh3d (x y z : List Int) (intensity : List Nat) (hovertext : List String)
  /-- `go.Scatter3d(x=edge_x, ..., mode='lines', line=dict(color))`: the
  edge trace appended when `show_links` is true. -/
  | edgeLines (x y z : List (Option Int)) (lineColor : String)
deriving Repr, DecidableEq

/-- Outcome of a `plot_3d` call that did not raise: either the logged
invalid-plot-type early return (no chart is drawn) or the figure's traces
handed to `st.plotly_chart`. -/
inductive PlotResult where
  | invalidMode (mode : String)
  | figure (traces : List Trace)
deriving Repr, DecidableEq

/-- `plot_3d(data, plot_type, symbol, show_links, show_material,
show_gamma_radius, show_criteria, node_radius_size)` from the source.
Evaluation order follows the source: positions, then edges (only if
`show_links`), then hover text, then colours and sizes, then the mode
dispatch, then the conditional edge trace. -/
def plot_3d (material_mapping material_colors : String → Option String)
    (data : List Record) (plot_type : String) (symbol : Option String)
    (show_links show_material show_gamma_radius show_criteria : Bool)
    (node_radius_size : Int) : Except String PlotResult :=
  let x_data := data.map (·.x)
  let y_data := data.map (·.y)
  let z_data := data.map (·.z)
  let edges := if show_links then get_edges data else ([], [], [])
  match prepare_hover_text data show_links show_material show_gamma_radius
      show_criteria with
  | .error e => .error e
  | .ok hover_texts =>
    match prepare_node_colors_and_sizes material_mapping material_colors data
        node_radius_size with
    | .error e => .error e
    | .ok (colors, sizes) =>
      let base : Option (List Trace) :=
        if plot_type == "scatter" then
          some [.markers x_data y_data z_data colors sizes symbol hover_texts]
        else if plot_type == "surface" then
          some [.markers x_data y_data z_data colors sizes none hover_texts]
        else if plot_type == "line" then
          some [.linesMarkers x_data y_data z_data colors sizes "red" hover_texts]
        else if plot_type == "mesh" then
          some [.mesh3d x_data y_data z_data (List.range colors.length) hover_texts,
                .markers x_data y_data z_data colors sizes none hover_texts]
        else none
      match base with
      | none => .ok (.invalidMode plot_type)
      | some ts =>
        .ok (.figure (if show_links then
            ts ++ [.edgeLines edges.1 edges.2.1 edges.2.2 "red"]
          else ts))

/-- `adjust_node_height_data(data, node_height)` from the source: when the
flag is false every node's `z` is overwritten with `0` (in-place mutation
modelled as a map); the list itself is returned. -/
def adjust_node_height_data (data : List Record) (node_height : Bool) :
    List Record :=
  if !node_height then data.map (fun item => { item with z := 0 }) else data

/-- Total number of edge occurrences over all records; a record without an
`edges` key contributes `0`. -/
def totalEdgeCount (data : List Record) : Nat :=
  (data.map (fun r => (r.edges.getD []).length)).sum

/-- Number of edge occurrences whose target id resolves in `lookup`. -/
def resolvedCount (lookup : List Record) (iter : List Record) : Nat :=
  (iter.map (fun r =>
    (r.edges.getD []).countP (fun e => (findNode lookup e).isSome))).sum

/-- `get_edges` with the outer loop running over `iter` while edge targets
are still resolved against the full list `lookup` (the sub-list reading of
claim C9). -/
def getEdgesOver (lookup iter : List Record) :
    List (Option Int) × List (Option Int) × List (Option Int) :=
  (edgeCoordAux (·.x) lookup iter, edgeCoordAux (·.y) lookup iter,
   edgeCoordAux (·.z) lookup iter)

section EdgeLemmas

variable (f : Record → Int) (L : List Record) (item : Record)

theorem innerSeg_cons (e : Int) (es : List Int) :
    innerSeg f L item (e :: es)
      = (match findNode L e with
         | some t => [some (f item), some (f t), none]
         | none => []) ++ innerSeg f L item es := by
  simp [innerSeg, List.flatMap_cons]

theorem innerSeg_append (es1 es2 : List Int) :
    innerSeg f L item (es1 ++ es2)
      = innerSeg f L item es1 ++ innerSeg f L item es2 := by
  simp [innerSeg, List.flatMap_append]

theorem innerSeg_length (es : List Int) :
    (innerSeg f L item es).length
      = 3 * es.countP (fun e => (findNode L e).isSome) := by
  induction es with
  | nil => rfl
  | cons e es ih =>
      rw [innerSeg_cons, List.countP_cons]
      cases h : findNode L e with
      | none => simp [h, ih]
      | some t =>
          simp [h, ih]
          omega

theorem edgeCoordAux_cons (iter : List Record) :
    edgeCoordAux f L (item :: iter)
      = (match item.edges with
         | none => []
         | some es => innerSeg f L item es) ++ edgeCoordAux f L iter := by
  simp [edgeCoordAux, List.flatMap_cons]

theorem edgeCoordAux_append (it1 it2 : List Record) :
    edgeCoordAux f L (it1 ++ it2)
      = edgeCoordAux f L it1 ++ edgeCoordAux f L it2 := by
  simp [edgeCoordAux, List.flatMap_append]

theorem resolvedCount_cons (r : Record) (iter : List Record) :
    resolvedCount L (r :: iter)
      = (r.edges.getD []).countP (fun e => (findNode L e).isSome)
        + resolvedCount L iter := by
  simp [resolvedCount]

theorem edgeCoordAux_length (iter : List Record) :
    (edgeCoordAux f L iter).length = 3 * resolvedCount L iter := by
  induction iter with
  | nil => rfl
  | cons r iter ih =>
      rw [edgeCoordAux_cons, List.length_append, ih, resolvedCount_cons]
      cases h : r.edges with
      | none => simp [h]
      | some es =>
          simp only [h, Option.getD_some, innerSeg_length]
          ring

theorem edgeCoordAux_eq_nil (iter : List Record)
    (h : ∀ r ∈ iter, r.edges = none ∨ r.edges = some []) :
    edgeCoordAux f L iter = [] := by
  induction iter with
  | nil => rfl
  | cons r iter ih =>
      rw [edgeCoordAux_cons]
      rcases h r (by simp) with hr | hr <;>
        simp [hr, innerSeg, ih (fun x hx => h x (by simp [hx]))]

theorem edgeCoordAux_filter_isSome (f : Record → Int) (L iter : List Record) :
    edgeCoordAux f L (iter.filter (fun r => r.edges.isSome))
      = edgeCoordAux f L iter := by
  induction iter with
  | nil => rfl
  | cons r iter ih =>
      cases h : r.edges with
      | none =>
          rw [edgeCoordAux_cons, h]
          simpa [List.filter_cons, h] using ih
      | some es =>
          rw [edgeCoordAux_cons, h, List.filter_cons]
          simp only [h, Option.isSome_some, if_true]
          rw [edgeCoordAux_cons, h, ih]

theorem resolvedCount_eq_total (data : List Record)
    (h : ∀ r ∈ data, ∀ e ∈ r.edges.getD [], ∃ t ∈ data, t.id = e) :
    resolvedCount data data = totalEdgeCount data := by
  unfold resolvedCount totalEdgeCount
  congr 1
  apply List.map_congr_left
  intro r hr
  apply List.countP_eq_length.mpr
  intro e he
  obtain ⟨t, ht, hid⟩ := h r hr e he
  simp only [findNode, List.find?_isSome]
  exact ⟨t, ht, by simp [hid]⟩

end EdgeLemmas

/-- Concrete two-node list used by witnesses: node 1 at the origin with
edges to 2 and itself, node 2 at (5,6,7) with an empty edge list. -/
def wData1 : List Record :=
  [{ id := 1, x := 0, y := 0, z := 0, edges := some [2, 1] },
   { id := 2, x := 5, y := 6, z := 7, edges := some [] }]

/-- Claim C1: `get_edges` returns three sequences of equal length; when no
node has any edges all three are empty; and when every edge id in every
node's edge list matches some node id, each sequence has length exactly
three times the total number of edge occurrences (one source coordinate,
one target coordinate, one sentinel per occurrence). -/
theorem get_edges_shape (data : List Record) :
    ((get_edges data).1.length = (get_edges data).2.1.length
      ∧ (get_edges data).2.1.length = (get_edges data).2.2.length)
    ∧ ((∀ r ∈ data, r.edges = none ∨ r.edges = some []) →
        get_edges data = ([], [], []))
    ∧ ((∀ r ∈ data, ∀ e ∈ r.edges.getD [], ∃ t ∈ data, t.id = e) →
        (get_edges data).1.length = 3 * totalEdgeCount data
        ∧ (get_edges data).2.1.length = 3 * totalEdgeCount data
        ∧ (get_edges data).2.2.length = 3 * totalEdgeCount data) := by
  refine ⟨⟨?_, ?_⟩, ?_, ?_⟩
  · simp [get_edges, edgeCoordAux_length]
  · simp [get_edges, edgeCoordAux_length]
  · intro h
    simp [get_edges, edgeCoordAux_eq_nil _ _ _ h]
  · intro h
    have ht := resolvedCount_eq_total data h
    simp [get_edges, edgeCoordAux_length, ht]

/-- Witness for C1 at a concrete two-node list with two resolvable edge
occurrences: the hypothesis of the counting conjunct holds and each
sequence has length `3 * 2 = 6`. -/
theorem get_edges_shape_witness :
    (∀ r ∈ wData1, ∀ e ∈ r.edges.getD [], ∃ t ∈ wData1, t.id = e)
    ∧ (get_edges wData1).1.length = 3 * totalEdgeCount wData1
    ∧ totalEdgeCount wData1 = 2 := by
  have h : ∀ r ∈ wData1, ∀ e ∈ r.edges.getD [], ∃ t ∈ wData1, t.id = e := by
    decide
  exact ⟨h, ((get_edges_shape wData1).2.2 h).1, by decide⟩

/-- Claim C9: a record without an `edges` key is skipped by the
`"edges" in item` guard and contributes nothing, so `get_edges` equals the
same loop run over only the records carrying an `edges` key, with target
lookup still over the full list; in particular `get_edges` never fails on
such records. -/
theorem get_edges_filter_spec (data : List Record) :
    get_edges data
      = getEdgesOver data (data.filter (fun r => r.edges.isSome)) := by
  unfold get_edges getEdgesOver
  rw [edgeCoordAux_filter_isSome, edgeCoordAux_filter_isSome,
    edgeCoordAux_filter_isSome]

/-- Claim C5: `adjust_node_height_data` with the flag true is the identity;
with the flag false it sets every `z` to `0` while leaving every `x` and
`y` untouched; and it is idempotent for either flag value. -/
theorem adjust_node_height_spec (data : List Record) :
    adjust_node_height_data data true = data
    ∧ (adjust_node_height_data data false).map (·.x) = data.map (·.x)
    ∧ (adjust_node_height_data data false).map (·.y) = data.map (·.y)
    ∧ (adjust_node_height_data data false).map (·.z)
        = data.map (fun _ => (0 : Int))
    ∧ (∀ b : Bool,
        adjust_node_height_data (adjust_node_height_data data b) b
          = adjust_node_height_data data b) := by
  refine ⟨rfl, ?_, ?_, ?_, ?_⟩
  · simp [adjust_node_height_data]
  · simp [adjust_node_height_data]
  · have hmap : adjust_node_height_data data false
        = data.map (fun item => { item with z := 0 }) := rfl
    rw [hmap, List.map_map]
    exact List.map_congr_left (fun a _ => rfl)
  · intro b
    cases b with
    | true => rfl
    | false => simp [adjust_node_height_data]

/-- Claim C10: `adjust_node_height_data` preserves length and order and
writes only `z`: every output node keeps the input node's `id`, `x`, `y`,
`material`, `gamma`, `radius`, `criteria` and `edges`, and its `z` is the
input `z` when the flag is true and `0` when it is false. -/
theorem adjust_node_height_frame (data : List Record) (b : Bool) :
    (adjust_node_height_data data b).length = data.length
    ∧ List.Forall₂
        (fun r' r => r'.id = r.id ∧ r'.x = r.x ∧ r'.y = r.y
          ∧ r'.material = r.material ∧ r'.gamma = r.gamma
          ∧ r'.radius = r.radius ∧ r'.criteria = r.criteria
          ∧ r'.edges = r.edges ∧ r'.z = (if b then r.z else 0))
        (adjust_node_height_data data b) data := by
  constructor
  · cases b <;> simp [adjust_node_height_data]
  · cases b with
    | true =>
        have hid : adjust_node_height_data data true = data := rfl
        rw [hid, List.forall₂_same]
        intro r _
        simp
    | false =>
        have hmap : adjust_node_height_data data false
            = data.map (fun item => { item with z := 0 }) := rfl
        rw [hmap]
        clear hmap
        induction data with
        | nil => constructor
        | cons r data ih =>
            refine List.Forall₂.cons ?_ ih
            simp

theorem exceptMap_ok {α β : Type} (f : α → Except String β) (g : α → β)
    (l : List α) (h : ∀ a ∈ l, f a = .ok (g a)) :
    exceptMap f l = .ok (l.map g) := by
  induction l with
  | nil => rfl
  | cons a t ih =>
      simp only [exceptMap, h a (by simp),
        ih (fun x hx => h x (by simp [hx])), List.map_cons]

theorem exceptMap_error {α β : Type} (f : α → Except String β) (l : List α)
    (a : α) (ha : a ∈ l) (e : String) (he : f a = .error e) :
    ∃ e2, exceptMap f l = .error e2 := by
  induction l with
  | nil => cases ha
  | cons b t ih =>
      rcases List.mem_cons.mp ha with rfl | hmem
      · exact ⟨e, by simp [exceptMap, he]⟩
      · cases hb : f b with
        | error eb => exact ⟨eb, by simp [exceptMap, hb]⟩
        | ok vb =>
            obtain ⟨e2, ht⟩ := ih hmem
            exact ⟨e2, by simp [exceptMap, hb, ht]⟩

/-- The colour the spec prescribes for a node: its material mapped through
the material-name table with fallback class `"UNKNOWN"`, then through the
colour table with fallback `"purple"`. -/
def spec_color (material_mapping material_colors : String → Option String)
    (r : Record) : String :=
  (material_colors ((material_mapping (r.material.getD "")).getD "UNKNOWN")).getD
    "purple"

/-- The size the spec prescribes for a node: its radius times the scale,
unclamped. -/
def spec_size (size_scale : Int) (r : Record) : Int :=
  r.radius.getD 0 * size_scale

/-- Claim C2: on nodes carrying `material` and `radius`,
`prepare_node_colors_and_sizes` returns exactly one colour and one size per
node in input order; the i-th size is the node's radius times the scale
with no clamping, the i-th colour is the two-table lookup with fallbacks
`"UNKNOWN"` then `"purple"`, and a material unknown to both tables always
yields `"purple"`. -/
theorem prepare_node_colors_and_sizes_spec
    (material_mapping material_colors : String → Option String)
    (data : List Record) (size_scale : Int)
    (h : ∀ r ∈ data, r.material.isSome ∧ r.radius.isSome) :
    prepare_node_colors_and_sizes material_mapping material_colors data size_scale
      = .ok (data.map (spec_color material_mapping material_colors),
             data.map (spec_size size_scale))
    ∧ (data.map (spec_color material_mapping material_colors)).length
        = data.length
    ∧ (data.map (spec_size size_scale)).length = data.length
    ∧ (∀ r ∈ data, material_mapping (r.material.getD "") = none →
        material_colors "UNKNOWN" = none →
        spec_color material_mapping material_colors r = "purple") := by
  have hitem : ∀ r ∈ data,
      node_color_and_size material_mapping material_colors size_scale r
        = .ok (spec_color material_mapping material_colors r,
               spec_size size_scale r) := by
    intro r hr
    obtain ⟨hm, hrad⟩ := h r hr
    obtain ⟨m, hm⟩ := Option.isSome_iff_exists.mp hm
    obtain ⟨rad, hrad⟩ := Option.isSome_iff_exists.mp hrad
    simp [node_color_and_size, hm, hrad, resolve_color, spec_color, spec_size]
  refine ⟨?_, by simp, by simp, ?_⟩
  · unfold prepare_node_colors_and_sizes
    rw [exceptMap_ok _ _ data hitem]
    simp [List.map_map, Function.comp]
  · intro r _ h1 h2
    simp [spec_color, h1, h2]

/-- Concrete node list for the C2 witness: one node with a material absent
from both (empty) tables and radius 2. -/
def wData2 : List Record :=
  [{ id := 1, x := 0, y := 0, z := 0, material := some "M", radius := some 2 }]

/-- Witness for C2: on `wData2` with empty lookup tables the hypothesis
holds, the builder returns the mapped colours and sizes, and the unknown
material resolves to `"purple"`. -/
theorem prepare_node_colors_and_sizes_spec_witness :
    (∀ r ∈ wData2, r.material.isSome ∧ r.radius.isSome)
    ∧ prepare_node_colors_and_sizes (fun _ => none) (fun _ => none) wData2 50
        = .ok (wData2.map (spec_color (fun _ => none) (fun _ => none)),
               wData2.map (spec_size 50))
    ∧ (∀ r ∈ wData2, (fun _ => (none : Option String)) (r.material.getD "") = none →
        (fun _ => (none : Option String)) "UNKNOWN" = none →
        spec_color (fun _ => none) (fun _ => none) r = "purple") := by
  have h : ∀ r ∈ wData2, r.material.isSome ∧ r.radius.isSome := by decide
  have hs := prepare_node_colors_and_sizes_spec (fun _ => none) (fun _ => none)
    wData2 50 h
  exact ⟨h, hs.1, hs.2.2.2⟩

/-- The hover string the spec prescribes for a node: `"Node ID: <id>"`
followed, in the fixed order links, material, gamma+radius, criteria, by
exactly the sections whose flag is true, each preceded by `"<br>"`. -/
def hover_format (show_links show_material show_gamma_radius show_criteria : Bool)
    (r : Record) : String :=
  "Node ID: " ++ toString r.id
    ++ (if show_links then
          "<br>Links: " ++ String.intercalate ", " ((r.edges.getD []).map toString)
        else "")
    ++ (if show_material then "<br>Material: " ++ r.material.getD "" else "")
    ++ (if show_gamma_radius then
          "<br>Gamma: " ++ toString (r.gamma.getD 0)
            ++ "<br>Radius: " ++ toString (r.radius.getD 0)
        else "")
    ++ (if show_criteria then "<br>Criteria: " ++ r.criteria.getD "" else "")

theorem links_section_ok (sl : Bool) (r : Record) (h : sl → r.edges.isSome) :
    links_section sl r
      = .ok (if sl then
          "<br>Links: " ++ String.intercalate ", " ((r.edges.getD []).map toString)
        else "") := by
  cases sl with
  | false => rfl
  | true =>
      obtain ⟨es, hes⟩ := Option.isSome_iff_exists.mp (h rfl)
      simp [links_section, hes]

theorem material_section_ok (sm : Bool) (r : Record) (h : sm → r.material.isSome) :
    material_section sm r
      = .ok (if sm then "<br>Material: " ++ r.material.getD "" else "") := by
  cases sm with
  | false => rfl
  | true =>
      obtain ⟨m, hm⟩ := Option.isSome_iff_exists.mp (h rfl)
      simp [material_section, hm]

theorem gamma_radius_section_ok (sg : Bool) (r : Record)
    (h : sg → r.gamma.isSome ∧ r.radius.isSome) :
    gamma_radius_section sg r
      = .ok (if sg then
          "<br>Gamma: " ++ toString (r.gamma.getD 0)
            ++ "<br>Radius: " ++ toString (r.radius.getD 0)
        else "") := by
  cases sg with
  | false => rfl
  | true =>
      obtain ⟨g, hg⟩ := Option.isSome_iff_exists.mp (h rfl).1
      obtain ⟨rad, hrad⟩ := Option.isSome_iff_exists.mp (h rfl).2
      simp [gamma_radius_section, hg, hrad]

theorem criteria_section_ok (sc : Bool) (r : Record) (h : sc → r.criteria.isSome) :
    criteria_section sc r
      = .ok (if sc then "<br>Criteria: " ++ r.criteria.getD "" else "") := by
  cases sc with
  | false => rfl
  | true =>
      obtain ⟨c, hc⟩ := Option.isSome_iff_exists.mp (h rfl)
      simp [criteria_section, hc]

theorem hover_line_ok (sl sm sg sc : Bool) (r : Record)
    (h1 : sl → r.edges.isSome) (h2 : sm → r.material.isSome)
    (h3 : sg → r.gamma.isSome ∧ r.radius.isSome) (h4 : sc → r.criteria.isSome) :
    hover_line sl sm sg sc r = .ok (hover_format sl sm sg sc r) := by
  rw [hover_line, links_section_ok sl r h1, material_section_ok sm r h2,
    gamma_radius_section_ok sg r h3, criteria_section_ok sc r h4]
  rfl

theorem hover_text_all_false (data : List Record) :
    prepare_hover_text data false false false false
      = .ok (data.map (fun r => "Node ID: " ++ toString r.id)) := by
  unfold prepare_hover_text
  apply exceptMap_ok
  intro r _
  rw [hover_line_ok false false false false r (by simp) (by simp) (by simp)
    (by simp)]
  simp [hover_format]

/-- Claim C3: on nodes carrying the fields the enabled flags read,
`prepare_hover_text` returns one string per node in input order, each being
`"Node ID: <id>"` followed by exactly the flagged sections in the fixed
order links, material, gamma+radius (always together), criteria, separated
by `"<br>"`; with all four flags false the result is exactly
`"Node ID: <id>"`, and the spec's example node yields
`"Node ID: 5<br>Material: X<br>Gamma: 2<br>Radius: 3"`. -/
theorem prepare_hover_text_spec (data : List Record)
    (show_links show_material show_gamma_radius show_criteria : Bool)
    (h : ∀ r ∈ data,
      (show_links → r.edges.isSome) ∧ (show_material → r.material.isSome)
      ∧ (show_gamma_radius → r.gamma.isSome ∧ r.radius.isSome)
      ∧ (show_criteria → r.criteria.isSome)) :
    prepare_hover_text data show_links show_material show_gamma_radius
        show_criteria
      = .ok (data.map
          (hover_format show_links show_material show_gamma_radius show_criteria))
    ∧ prepare_hover_text data false false false false
        = .ok (data.map (fun r => "Node ID: " ++ toString r.id))
    ∧ prepare_hover_text
        [{ id := 5, x := 0, y := 0, z := 0, material := some "X",
           gamma := some 2, radius := some 3 }] false true true false
        = .ok ["Node ID: 5<br>Material: X<br>Gamma: 2<br>Radius: 3"] := by
  refine ⟨?_, hover_text_all_false data, by rfl⟩
  unfold prepare_hover_text
  apply exceptMap_ok
  intro r hr
  obtain ⟨h1, h2, h3, h4⟩ := h r hr
  exact hover_line_ok _ _ _ _ r h1 h2 h3 h4

/-- The spec's C3 example node list. -/
def wData3 : List Record :=
  [{ id := 5, x := 0, y := 0, z := 0, material := some "X",
     gamma := some 2, radius := some 3 }]

/-- Witness for C3 at the spec's example node with `show_material` and
`show_gamma_radius` true: the presence hypothesis holds and the hover text
is exactly the spec's example string. -/
theorem prepare_hover_text_spec_witness :
    (∀ r ∈ wData3,
      (false = true → r.edges.isSome) ∧ (true = true → r.material.isSome)
      ∧ (true = true → r.gamma.isSome ∧ r.radius.isSome)
      ∧ (false = true → r.criteria.isSome))
    ∧ prepare_hover_text wData3 false true true false
      = .ok (wData3.map (hover_format false true true false)) := by
  have h : ∀ r ∈ wData3,
      (false = true → r.edges.isSome) ∧ (true = true → r.material.isSome)
      ∧ (true = true → r.gamma.isSome ∧ r.radius.isSome)
      ∧ (false = true → r.criteria.isSome) := by decide
  exact ⟨h, (prepare_hover_text_spec wData3 false true true false h).1⟩

theorem node_color_and_size_error (mm mc : String → Option String) (s : Int)
    (r : Record) (h : r.material = none ∨ r.radius = none) :
    ∃ e, node_color_and_size mm mc s r = .error e := by
  rcases h with h | h
  · exact ⟨"material", by simp [node_color_and_size, h]⟩
  · cases hm : r.material with
    | none => exact ⟨"material", by simp [node_color_and_size, hm]⟩
    | some m => exact ⟨"radius", by simp [node_color_and_size, hm, h]⟩

theorem hover_line_error (sl sm sg sc : Bool) (r : Record)
    (h : (sl = true ∧ r.edges = none) ∨ (sm = true ∧ r.material = none)
      ∨ (sg = true ∧ (r.gamma = none ∨ r.radius = none))
      ∨ (sc = true ∧ r.criteria = none)) :
    ∃ e, hover_line sl sm sg sc r = .error e := by
  cases hls : links_section sl r with
  | error e => exact ⟨e, by simp [hover_line, hls]⟩
  | ok s1 =>
    cases hms : material_section sm r with
    | error e => exact ⟨e, by simp [hover_line, hls, hms]⟩
    | ok s2 =>
      cases hgs : gamma_radius_section sg r with
      | error e => exact ⟨e, by simp [hover_line, hls, hms, hgs]⟩
      | ok s3 =>
        cases hcs : criteria_section sc r with
        | error e => exact ⟨e, by simp [hover_line, hls, hms, hgs, hcs]⟩
        | ok s4 =>
            exfalso
            rcases h with ⟨hf, hn⟩ | ⟨hf, hn⟩ | ⟨hf, hn⟩ | ⟨hf, hn⟩
            · rw [hf] at hls
              simp [links_section, hn] at hls
            · rw [hf] at hms
              simp [material_section, hn] at hms
            · rw [hf] at hgs
              rcases hn with hn | hn
              · simp [gamma_radius_section, hn] at hgs
              · cases hg : r.gamma with
                | none => simp [gamma_radius_section, hg] at hgs
                | some g => simp [gamma_radius_section, hg, hn] at hgs
            · rw [hf] at hcs
              simp [criteria_section, hn] at hcs

/-- Claim C4, amended: `get_edges` tolerates a record missing the `edges`
key (the guard skips it and it contributes nothing), and
`prepare_hover_text` with all flags false completes on any record; but
`prepare_node_colors_and_sizes` raises a `KeyError` whenever any node is
missing `material` or `radius`, and `prepare_hover_text` raises whenever a
flag is true and the corresponding field is missing on some node. -/
theorem builders_on_missing_fields
    (mm mc : String → Option String) (s : Int) :
    (∀ (d1 d2 : List Record) (r : Record), r.edges = none →
        get_edges (d1 ++ r :: d2) = getEdgesOver (d1 ++ r :: d2) (d1 ++ d2))
    ∧ (∀ data : List Record,
        prepare_hover_text data false false false false
          = .ok (data.map (fun r => "Node ID: " ++ toString r.id)))
    ∧ (∀ (data : List Record) (r : Record), r ∈ data →
        r.material = none ∨ r.radius = none →
        ∃ e, prepare_node_colors_and_sizes mm mc data s = .error e)
    ∧ (∀ (data : List Record) (r : Record) (sl sm sg sc : Bool), r ∈ data →
        ((sl = true ∧ r.edges = none) ∨ (sm = true ∧ r.material = none)
          ∨ (sg = true ∧ (r.gamma = none ∨ r.radius = none))
          ∨ (sc = true ∧ r.criteria = none)) →
        ∃ e, prepare_hover_text data sl sm sg sc = .error e) := by
  refine ⟨?_, hover_text_all_false, ?_, ?_⟩
  · intro d1 d2 r hr
    have haxis : ∀ f : Record → Int,
        edgeCoordAux f (d1 ++ r :: d2) (d1 ++ r :: d2)
          = edgeCoordAux f (d1 ++ r :: d2) (d1 ++ d2) := by
      intro f
      rw [edgeCoordAux_append, edgeCoordAux_cons, hr, edgeCoordAux_append]
      simp
    simp only [get_edges, getEdgesOver, haxis]
  · intro data r hmem hmiss
    obtain ⟨e, he⟩ := node_color_and_size_error mm mc s r hmiss
    obtain ⟨e2, h2⟩ := exceptMap_error _ data r hmem e he
    exact ⟨e2, by simp [prepare_node_colors_and_sizes, h2]⟩
  · intro data r sl sm sg sc hmem hmiss
    obtain ⟨e, he⟩ := hover_line_error sl sm sg sc r hmiss
    obtain ⟨e2, h2⟩ := exceptMap_error _ data r hmem e he
    exact ⟨e2, by simp [prepare_hover_text, h2]⟩

/-- A structurally valid record carrying only the required `id`, `x`, `y`,
`z` fields; every optional key is absent. -/
def wRec4 : Record := { id := 1, x := 0, y := 0, z := 0 }

/-- Counterexample to claim C4 as stated: on a record that has `x`, `y` and
`z` but is missing the optional `material` key,
`prepare_node_colors_and_sizes` raises a `KeyError` instead of treating the
field as empty and completing. -/
theorem builders_on_missing_fields_counterexample :
    prepare_node_colors_and_sizes (fun _ => none) (fun _ => none) [wRec4] 50
      = .error "material" := rfl

/-- Witness for the amended C4 at the all-optional-fields-missing record:
the edge builder and flagless hover text complete, while the style
resolver and flagged hover text error. -/
theorem builders_on_missing_fields_witness :
    (wRec4.edges = none
      ∧ get_edges ([] ++ wRec4 :: []) = getEdgesOver ([] ++ wRec4 :: []) ([] ++ []))
    ∧ prepare_hover_text [wRec4] false false false false
        = .ok ([wRec4].map (fun r => "Node ID: " ++ toString r.id))
    ∧ (∃ e, prepare_node_colors_and_sizes (fun _ => none) (fun _ => none)
        [wRec4] 50 = .error e)
    ∧ (∃ e, prepare_hover_text [wRec4] true false false false = .error e) := by
  have hb := builders_on_missing_fields (fun _ => none) (fun _ => none) 50
  refine ⟨⟨rfl, hb.1 [] [] wRec4 rfl⟩, hb.2.1 [wRec4], ?_, ?_⟩
  · exact hb.2.2.1 [wRec4] wRec4 (by simp) (Or.inl rfl)
  · exact hb.2.2.2 [wRec4] wRec4 true false false false (by simp)
      (Or.inl ⟨rfl, rfl⟩)

/-- Two records agree on every field `get_edges` reads from a lookup
result: id and the three coordinates. -/
def geoEq (a b : Record) : Prop :=
  a.id = b.id ∧ a.x = b.x ∧ a.y = b.y ∧ a.z = b.z

theorem findNode_geoEq (l1 l2 : List Record)
    (h : List.Forall₂ geoEq l1 l2) (e : Int) :
    (findNode l1 e = none ∧ findNode l2 e = none)
    ∨ ∃ t1 t2, findNode l1 e = some t1 ∧ findNode l2 e = some t2
        ∧ geoEq t1 t2 := by
  induction h with
  | nil => exact Or.inl ⟨rfl, rfl⟩
  | @cons a b l1t l2t hab htail ih =>
      cases hpa : (a.id == e) with
      | true =>
          refine Or.inr ⟨a, b, ?_, ?_, hab⟩
          · exact List.find?_cons_of_pos l1t hpa
          · exact List.find?_cons_of_pos l2t (by rw [← hab.1]; exact hpa)
      | false =>
          have hpb : ¬ (b.id == e) = true := by
            rw [← hab.1, hpa]
            simp
          have hna : ¬ (a.id == e) = true := by simp [hpa]
          rw [findNode, List.find?_cons_of_neg l1t hna, findNode,
            List.find?_cons_of_neg l2t hpb]
          exact ih

theorem innerSeg_item_congr (f : Record → Int) (L : List Record)
    (item1 item2 : Record) (h : f item1 = f item2) (es : List Int) :
    innerSeg f L item1 es = innerSeg f L item2 es := by
  simp only [innerSeg, h]

theorem innerSeg_lookup_congr (f : Record → Int)
    (hf : ∀ a b, geoEq a b → f a = f b) (l1 l2 : List Record)
    (h : List.Forall₂ geoEq l1 l2) (item1 item2 : Record)
    (hitem : f item1 = f item2) (es : List Int) :
    innerSeg f l1 item1 es = innerSeg f l2 item2 es := by
  induction es with
  | nil => rfl
  | cons e es ih =>
      rw [innerSeg_cons, innerSeg_cons, ih]
      congr 1
      rcases findNode_geoEq l1 l2 h e with ⟨h1, h2⟩ | ⟨t1, t2, h1, h2, ht⟩
      · rw [h1, h2]
      · rw [h1, h2]
        simp [hitem, hf t1 t2 ht]

theorem edgeCoordAux_lookup_congr (f : Record → Int)
    (hf : ∀ a b, geoEq a b → f a = f b) (L1 L2 : List Record)
    (hL : List.Forall₂ geoEq L1 L2) (iter1 iter2 : List Record)
    (hiter : List.Forall₂ (fun a b => a.edges = b.edges ∧ f a = f b)
      iter1 iter2) :
    edgeCoordAux f L1 iter1 = edgeCoordAux f L2 iter2 := by
  induction hiter with
  | nil => rfl
  | @cons a b it1 it2 hab htail ih =>
      rw [edgeCoordAux_cons, edgeCoordAux_cons, ih]
      congr 1
      obtain ⟨he, hfa⟩ := hab
      rw [← he]
      cases hae : a.edges with
      | none => rfl
      | some es => exact innerSeg_lookup_congr f hf L1 L2 hL a b hfa es

/-- Claim C8: an edge id that matches no node id in the list is silently
skipped: removing that one entry from the owning node's edge list leaves
`get_edges` unchanged (the dangling entry contributed no coordinates and
no sentinel, nothing errored, and every other occurrence is still
emitted). -/
theorem get_edges_skips_dangling (pre post : List Record) (item : Record)
    (es1 es2 : List Int) (e : Int)
    (hd : ∀ n ∈ pre ++ ({ item with edges := some (es1 ++ e :: es2) } : Record)
        :: post, n.id ≠ e) :
    get_edges (pre ++ ({ item with edges := some (es1 ++ e :: es2) } : Record)
        :: post)
      = get_edges (pre ++ ({ item with edges := some (es1 ++ es2) } : Record)
        :: post) := by
  set m1 : Record := { item with edges := some (es1 ++ e :: es2) } with hm1
  set m2 : Record := { item with edges := some (es1 ++ es2) } with hm2
  set L1 : List Record := pre ++ m1 :: post with hL1
  set L2 : List Record := pre ++ m2 :: post with hL2
  have hnone : findNode L1 e = none := by
    apply List.find?_eq_none.mpr
    intro x hx
    simp [hd x hx]
  have hrefl : ∀ l : List Record, List.Forall₂ geoEq l l :=
    fun l => List.forall₂_same.mpr (fun x _ => ⟨rfl, rfl, rfl, rfl⟩)
  have hgeo : List.Forall₂ geoEq L1 L2 := by
    rw [hL1, hL2]
    exact List.rel_append (hrefl pre)
      (List.Forall₂.cons ⟨rfl, rfl, rfl, rfl⟩ (hrefl post))
  have haxis : ∀ f : Record → Int, (∀ a b, geoEq a b → f a = f b) →
      f m1 = f m2 →
      edgeCoordAux f L1 L1 = edgeCoordAux f L2 L2 := by
    intro f hf hfm
    have h1 : edgeCoordAux f L1 L1 = edgeCoordAux f L1 L2 := by
      rw [hL1, hL2, edgeCoordAux_append, edgeCoordAux_append,
        edgeCoordAux_cons, edgeCoordAux_cons]
      have hinner : innerSeg f L1 m1 (es1 ++ e :: es2)
          = innerSeg f L1 m2 (es1 ++ es2) := by
        rw [innerSeg_append, innerSeg_cons, hnone, innerSeg_append,
          innerSeg_item_congr f L1 m1 m2 hfm es1,
          innerSeg_item_congr f L1 m1 m2 hfm es2]
        simp
      rw [hm1, hm2] at hinner ⊢
      simp only [hinner]
    have h2 : edgeCoordAux f L1 L2 = edgeCoordAux f L2 L2 :=
      edgeCoordAux_lookup_congr f hf L1 L2 hgeo L2 L2
        (List.forall₂_same.mpr (fun x _ => ⟨rfl, rfl⟩))
    rw [h1, h2]
  simp only [get_edges]
  rw [haxis (·.x) (fun a b h => h.2.1) rfl,
    haxis (·.y) (fun a b h => h.2.2.1) rfl,
    haxis (·.z) (fun a b h => h.2.2.2) rfl]

/-- Witness for C8: a single self-linked node whose edge list also holds
the dangling id 99; dropping the dangling entry leaves `get_edges`
unchanged. -/
theorem get_edges_skips_dangling_witness :
    (∀ n ∈ ([] : List Record)
        ++ ({ wRec4 with edges := some ([1] ++ 99 :: []) } : Record) :: [],
      n.id ≠ 99)
    ∧ get_edges ([] ++ ({ wRec4 with edges := some ([1] ++ 99 :: []) } : Record)
        :: [])
      = get_edges ([] ++ ({ wRec4 with edges := some ([1] ++ []) } : Record)
        :: []) := by
  have h : ∀ n ∈ ([] : List Record)
      ++ ({ wRec4 with edges := some ([1] ++ 99 :: []) } : Record) :: [],
      n.id ≠ 99 := by decide
  exact ⟨h, get_edges_skips_dangling [] [] wRec4 [1] [] 99 h⟩

theorem exceptMap_map {α β γ : Type} (g : α → β) (f : β → Except String γ)
    (l : List α) : exceptMap f (l.map g) = exceptMap (fun a => f (g a)) l := by
  induction l with
  | nil => rfl
  | cons a l ih =>
      simp only [List.map_cons, exceptMap, ih]

theorem exceptMap_congr {α β : Type} (f g : α → Except String β) (l : List α)
    (h : ∀ a ∈ l, f a = g a) : exceptMap f l = exceptMap g l := by
  induction l with
  | nil => rfl
  | cons a l ih =>
      simp only [exceptMap, h a (by simp),
        ih (fun x hx => h x (by simp [hx]))]

theorem node_color_and_size_ok (mm mc : String → Option String) (s : Int)
    (r : Record) (hm : r.material.isSome) (hrad : r.radius.isSome) :
    node_color_and_size mm mc s r = .ok (spec_color mm mc r, spec_size s r) := by
  obtain ⟨m, hm⟩ := Option.isSome_iff_exists.mp hm
  obtain ⟨rad, hrad⟩ := Option.isSome_iff_exists.mp hrad
  simp [node_color_and_size, hm, hrad, resolve_color, spec_color, spec_size]

theorem prepare_colors_ok (mm mc : String → Option String)
    (data : List Record) (s : Int)
    (h : ∀ r ∈ data, r.material.isSome ∧ r.radius.isSome) :
    prepare_node_colors_and_sizes mm mc data s
      = .ok (data.map (spec_color mm mc), data.map (spec_size s)) := by
  unfold prepare_node_colors_and_sizes
  rw [exceptMap_ok _
    (fun r => (spec_color mm mc r, spec_size s r)) data
    (fun r hr => node_color_and_size_ok mm mc s r (h r hr).1 (h r hr).2)]
  simp [List.map_map, Function.comp]

theorem prepare_hover_ok (data : List Record) (sl sm sg sc : Bool)
    (h : ∀ r ∈ data,
      (sl → r.edges.isSome) ∧ (sm → r.material.isSome)
      ∧ (sg → r.gamma.isSome ∧ r.radius.isSome) ∧ (sc → r.criteria.isSome)) :
    prepare_hover_text data sl sm sg sc
      = .ok (data.map (hover_format sl sm sg sc)) := by
  unfold prepare_hover_text
  apply exceptMap_ok
  intro r hr
  obtain ⟨h1, h2, h3, h4⟩ := h r hr
  exact hover_line_ok sl sm sg sc r h1 h2 h3 h4

/-- A record carrying every optional field. -/
def wf (r : Record) : Prop :=
  r.material.isSome ∧ r.gamma.isSome ∧ r.radius.isSome ∧ r.criteria.isSome
    ∧ r.edges.isSome

/-- Claim C6: for any mode string outside `scatter`, `surface`, `line`,
`mesh`, `plot_3d` on well-formed nodes adds no trace at all — no marker,
line, mesh or edge trace, even when `show_links` is true — and reports the
invalid mode as a logged non-fatal outcome instead of raising. -/
theorem plot_3d_invalid_mode (mm mc : String → Option String)
    (data : List Record) (mode : String) (sym : Option String)
    (sl sm sg sc : Bool) (nrs : Int)
    (hmode : mode ∉ (["scatter", "surface", "line", "mesh"] : List String))
    (hwf : ∀ r ∈ data, wf r) :
    plot_3d mm mc data mode sym sl sm sg sc nrs = .ok (.invalidMode mode) := by
  have h1 : mode ≠ "scatter" := fun h => hmode (by simp [h])
  have h2 : mode ≠ "surface" := fun h => hmode (by simp [h])
  have h3 : mode ≠ "line" := fun h => hmode (by simp [h])
  have h4 : mode ≠ "mesh" := fun h => hmode (by simp [h])
  have hhover := prepare_hover_ok data sl sm sg sc
    (fun r hr => ⟨fun _ => (hwf r hr).2.2.2.2, fun _ => (hwf r hr).1,
      fun _ => ⟨(hwf r hr).2.1, (hwf r hr).2.2.1⟩, fun _ => (hwf r hr).2.2.2.1⟩)
  have hcolors := prepare_colors_ok mm mc data nrs
    (fun r hr => ⟨(hwf r hr).1, (hwf r hr).2.2.1⟩)
  simp [plot_3d, hhover, hcolors, h1, h2, h3, h4]

/-- A fully populated node used by the `plot_3d` witnesses. -/
def wRec6 : Record :=
  { id := 1, x := 0, y := 0, z := 0, material := some "A", gamma := some 1,
    radius := some 2, criteria := some "c", edges := some [] }

/-- Witness for C6: mode `"torus"` with `show_links` true on a well-formed
node yields the logged invalid-mode outcome and no figure. -/
theorem plot_3d_invalid_mode_witness :
    ("torus" ∉ (["scatter", "surface", "line", "mesh"] : List String))
    ∧ (∀ r ∈ [wRec6], wf r)
    ∧ plot_3d (fun _ => none) (fun _ => none) [wRec6] "torus" none
        true true true true 50 = .ok (.invalidMode "torus") := by
  have hmode : "torus" ∉ (["scatter", "surface", "line", "mesh"] : List String) := by
    decide
  have hwf : ∀ r ∈ [wRec6], wf r := by
    intro r hr
    rw [List.mem_singleton.mp hr]
    exact ⟨rfl, rfl, rfl, rfl, rfl⟩
  exact ⟨hmode, hwf, plot_3d_invalid_mode (fun _ => none) (fun _ => none)
    [wRec6] "torus" none true true true true 50 hmode hwf⟩

/-- Claim C7: edge geometry is appended only when `show_links` is true.
With `show_links` false the result is unchanged when every node's `edges`
field is erased (the adjacency data is never scanned) and no edge trace
appears in the figure; with `show_links` true and any recognized mode the
figure ends with the edge line trace built from `get_edges`, uniformly
across modes. -/
theorem plot_3d_show_links_spec (mm mc : String → Option String)
    (data : List Record) (mode : String) (sym : Option String)
    (sm sg sc : Bool) (nrs : Int) :
    (plot_3d mm mc data mode sym false sm sg sc nrs
      = plot_3d mm mc (data.map (fun r => { r with edges := none })) mode sym
          false sm sg sc nrs)
    ∧ (∀ ts, plot_3d mm mc data mode sym false sm sg sc nrs
          = .ok (.figure ts) →
        ∀ x y z c, Trace.edgeLines x y z c ∉ ts)
    ∧ ((mode = "scatter" ∨ mode = "surface" ∨ mode = "line" ∨ mode = "mesh") →
        ∀ ts, plot_3d mm mc data mode sym true sm sg sc nrs
          = .ok (.figure ts) →
        ∃ base, ts = base
          ++ [Trace.edgeLines (get_edges data).1 (get_edges data).2.1
              (get_edges data).2.2 "red"]) := by
  refine ⟨?_, ?_, ?_⟩
  · have hx : (data.map (fun r => ({ r with edges := none } : Record))).map (·.x)
        = data.map (·.x) := by
      rw [List.map_map]
      exact List.map_congr_left (fun a _ => rfl)
    have hy : (data.map (fun r => ({ r with edges := none } : Record))).map (·.y)
        = data.map (·.y) := by
      rw [List.map_map]
      exact List.map_congr_left (fun a _ => rfl)
    have hz : (data.map (fun r => ({ r with edges := none } : Record))).map (·.z)
        = data.map (·.z) := by
      rw [List.map_map]
      exact List.map_congr_left (fun a _ => rfl)
    have hhover : prepare_hover_text
        (data.map (fun r => { r with edges := none })) false sm sg sc
        = prepare_hover_text data false sm sg sc := by
      unfold prepare_hover_text
      rw [exceptMap_map]
      exact exceptMap_congr _ _ data (fun a _ => rfl)
    have hcolors : prepare_node_colors_and_sizes mm mc
        (data.map (fun r => { r with edges := none })) nrs
        = prepare_node_colors_and_sizes mm mc data nrs := by
      unfold prepare_node_colors_and_sizes
      rw [exceptMap_map, exceptMap_congr
        (fun a => node_color_and_size mm mc nrs { a with edges := none })
        (node_color_and_size mm mc nrs) data (fun a _ => rfl)]
    simp only [plot_3d, hx, hy, hz, hhover, hcolors, Bool.false_eq_true,
      if_false]
  · intro ts ht x y z c
    cases hh : prepare_hover_text data false sm sg sc with
    | error e => simp [plot_3d, hh] at ht
    | ok hover =>
      cases hc : prepare_node_colors_and_sizes mm mc data nrs with
      | error e => simp [plot_3d, hh, hc] at ht
      | ok cs =>
        obtain ⟨colors, sizes⟩ := cs
        simp only [plot_3d, hh, hc, Bool.false_eq_true, if_false] at ht
        cases hm1 : (mode == "scatter") with
        | true =>
            simp only [hm1, if_true] at ht
            cases ht
            simp
        | false =>
          cases hm2 : (mode == "surface") with
          | true =>
              simp only [hm1, hm2, if_true, Bool.false_eq_true, if_false] at ht
              cases ht
              simp
          | false =>
            cases hm3 : (mode == "line") with
            | true =>
                simp only [hm1, hm2, hm3, if_true, Bool.false_eq_true,
                  if_false] at ht
                cases ht
                simp
            | false =>
              cases hm4 : (mode == "mesh") with
              | true =>
                  simp only [hm1, hm2, hm3, hm4, if_true, Bool.false_eq_true,
                    if_false] at ht
                  cases ht
                  simp
              | false =>
                  simp only [hm1, hm2, hm3, hm4, Bool.false_eq_true,
                    if_false] at ht
                  cases ht
  · intro hmode ts ht
    cases hh : prepare_hover_text data true sm sg sc with
    | error e => simp [plot_3d, hh] at ht
    | ok hover =>
      cases hc : prepare_node_colors_and_sizes mm mc data nrs with
      | error e => simp [plot_3d, hh, hc] at ht
      | ok cs =>
        obtain ⟨colors, sizes⟩ := cs
        rcases hmode with rfl | rfl | rfl | rfl <;>
          · simp only [plot_3d, hh, hc] at ht
            simp at ht
            exact ⟨ts.dropLast, by rw [← ht]; simp⟩

/-- Witness for C7 on a single fully populated node in scatter mode: the
erase-edges invariance instance, the concrete `show_links = false` figure
with no edge trace, and the concrete `show_links = true` figure ending in
the `get_edges` trace. -/
theorem plot_3d_show_links_witness :
    (plot_3d (fun _ => none) (fun _ => none) [wRec6] "scatter" none false
        false false false 50
      = plot_3d (fun _ => none) (fun _ => none)
          ([wRec6].map (fun r => { r with edges := none })) "scatter" none
          false false false false 50)
    ∧ plot_3d (fun _ => none) (fun _ => none) [wRec6] "scatter" none false
        false false false 50
      = .ok (.figure [Trace.markers [0] [0] [0] ["purple"] [100] none
          ["Node ID: 1"]])
    ∧ Trace.edgeLines [] [] [] "red"
        ∉ [Trace.markers [0] [0] [0] ["purple"] [100] none ["Node ID: 1"]]
    ∧ plot_3d (fun _ => none) (fun _ => none) [wRec6] "scatter" none true
        false false false 50
      = .ok (.figure [Trace.markers [0] [0] [0] ["purple"] [100] none
          ["Node ID: 1<br>Links: "], Trace.edgeLines [] [] [] "red"])
    ∧ ∃ base, [Trace.markers [0] [0] [0] ["purple"] [100] none
          ["Node ID: 1<br>Links: "], Trace.edgeLines [] [] [] "red"]
        = base ++ [Trace.edgeLines (get_edges [wRec6]).1
            (get_edges [wRec6]).2.1 (get_edges [wRec6]).2.2 "red"] := by
  have h := plot_3d_show_links_spec (fun _ => none) (fun _ => none) [wRec6]
    "scatter" none false false false 50
  exact ⟨h.1, by rfl, h.2.1 _ (by rfl) [] [] [] "red", by rfl,
    h.2.2 (Or.inl rfl) _ (by rfl)⟩


end GraphViewer
